import Mathlib

/-!
Verification of the collab credential + rate-limiter core.

This file gives a shallow embedding of the two source files

  crates/collab/src/rate_limiter.rs
  crates/collab/src/llm/token.rs

and proves properties of the embedded definitions.

Modelling conventions, fixed once for the whole file:

  - Instants (chrono DateTime of Utc) and durations (chrono TimeDelta) are
    modelled as integers counting nanoseconds, the precision at which chrono
    stores and compares them.  Subtraction of instants yields a duration.
  - The num_milliseconds method of TimeDelta returns the number of whole
    milliseconds, rounding toward zero; Rust i64 division also rounds toward
    zero; both are modelled by Int.tdiv.
  - usize values (capacity, token_count) are modelled as Nat.
  - Rust numeric casts are modelled explicitly: usizeOfInt models a cast of a
    signed value to usize (two's-complement wrap into 64 bits), i32OfNat
    models a cast of usize to i32 (truncation to the low 32 bits, signed).
  - A Rust computation that can panic (i64 division by zero) is modelled as
    returning an Option, with none as the panic outcome.
-/

/-- Number of nanoseconds per millisecond. -/
def nsPerMs : Int := 1000000

/-- Model of chrono TimeDelta.num_milliseconds: whole milliseconds of a
duration held in nanoseconds, rounding toward zero (Rust/chrono semantics,
hence Int.tdiv and not floor division). -/
def numMilliseconds (ns : Int) : Int := Int.tdiv ns nsPerMs

/-- Model of a cast of an i64 (or sign-extended i32) value to usize: reduce
into the range 0 .. 2^64 - 1 by two's-complement wrap.  For arguments in
0 .. 2^63 - 1 this is the identity. -/
def usizeOfInt (x : Int) : Nat := (x % (2 ^ 64 : Int)).toNat

/-- Model of a cast of a usize value to i32: keep the low 32 bits and
reinterpret them as a signed 32-bit value.  For arguments below 2^31 this is
the identity. -/
def i32OfNat (n : Nat) : Int :=
  let m : Nat := n % 2 ^ 32
  if m < 2 ^ 31 then (m : Int) else (m : Int) - 2 ^ 32

/-- Model of the source's usize addition: wraps into 64 bits on overflow
(the release-profile behaviour of Rust integer addition; a build with
overflow checks would panic at the wrap point instead). -/
def usizeAdd (a b : Nat) : Nat := (a + b) % 2 ^ 64

/-- RateBucket from rate_limiter.rs: capacity and token_count are usize,
refill_time_per_token is a chrono Duration (nanoseconds), last_refill is a
DateTime of Utc (nanoseconds since epoch). -/
structure RateBucket where
  capacity : Nat
  token_count : Nat
  refill_time_per_token : Int
  last_refill : Int
deriving DecidableEq

namespace RateBucket

/-- RateBucket::new.  The source computes refill_duration / capacity as i32:
the usize capacity is truncated to an i32 (i32OfNat, which wraps for
capacity >= 2^31), then chrono divides the duration by it, exactly on
nanoseconds and rounding toward zero — modelled by Int.tdiv on the
nanosecond counts.  When the wrapped divisor is 0 (capacity a multiple of
2^32, including 0 itself) Rust panics inside chrono; the model keeps new
total under Lean's convention Int.tdiv x 0 = 0, leaving
refill_time_per_token = 0, a value on which the very next refill division
reports the panic (none) — theorems about new restrict their capacities so
this stand-in is never mistaken for a returning run. -/
def new (capacity : Nat) (refill_duration : Int) (now : Int) : RateBucket :=
  { capacity := capacity
    token_count := capacity
    refill_time_per_token := Int.tdiv refill_duration (i32OfNat capacity)
    last_refill := now }

/-- RateBucket::refill.  Mirrors the source: if elapsed >= refill_time_per_token
(exact nanosecond comparison), new_tokens = elapsed.num_milliseconds() /
refill_time_per_token.num_milliseconds() (i64 division, which panics when the
divisor is 0 — modelled by none), token_count becomes
min(token_count + new_tokens as usize, capacity) — with the cast and the
usize addition modelled by usizeOfInt and the wrapping usizeAdd — and
last_refill becomes now; otherwise the bucket is unchanged. -/
def refill (b : RateBucket) (now : Int) : Option RateBucket :=
  let elapsed : Int := now - b.last_refill
  if b.refill_time_per_token ≤ elapsed then
    if numMilliseconds b.refill_time_per_token = 0 then
      none
    else
      let new_tokens : Int :=
        Int.tdiv (numMilliseconds elapsed) (numMilliseconds b.refill_time_per_token)
      some { b with
              token_count := min (usizeAdd b.token_count (usizeOfInt new_tokens)) b.capacity
              last_refill := now }
  else
    some b

/-- RateBucket::allow: refill, then consume one token if available. -/
def allow (b : RateBucket) (now : Int) : Option (Bool × RateBucket) :=
  match refill b now with
  | none => none
  | some b1 =>
    if 0 < b1.token_count then
      some (true, { b1 with token_count := b1.token_count - 1 })
    else
      some (false, b1)

end RateBucket

/-- Iterate RateBucket::allow a given number of times, all at the same
instant, collecting the returned booleans; none if any call panics. -/
def allowN (b : RateBucket) (now : Int) : Nat → Option (List Bool × RateBucket)
  | 0 => some ([], b)
  | n + 1 =>
    match RateBucket.allow b now with
    | none => none
    | some (r, b1) =>
      match allowN b1 now n with
      | none => none
      | some (rs, b2) => some (r :: rs, b2)

/-- One call in a sequence of operations on a bucket: either allow(now) or
refill(now). -/
inductive RLOp where
  | opAllow (now : Int) : RLOp
  | opRefill (now : Int) : RLOp
deriving DecidableEq

/-- The instant carried by an operation. -/
def RLOp.time : RLOp → Int
  | RLOp.opAllow n => n
  | RLOp.opRefill n => n

/-- Run a sequence of allow/refill calls on a bucket; none if any call
panics. -/
def runOps (b : RateBucket) : List RLOp → Option RateBucket
  | [] => some b
  | RLOp.opAllow n :: rest =>
    match RateBucket.allow b n with
    | none => none
    | some (_, b1) => runOps b1 rest
  | RLOp.opRefill n :: rest =>
    match RateBucket.refill b n with
    | none => none
    | some b1 => runOps b1 rest

/-- A RateLimit trait implementor, reified as a record: capacity(),
refill_duration() and db_name(), plus tid modelling the TypeId that keys the
bucket cache. -/
structure RateLimitKind where
  tid : Nat
  capacity : Nat
  refill_duration : Int
  db_name : String
deriving DecidableEq

/-- The row returned by Database::get_rate_bucket: token_count is stored as
an i32 and last_refill as a naive UTC timestamp (nanoseconds). -/
structure SavedBucket where
  token_count : Int
  last_refill : Int
deriving DecidableEq

/-- RateLimiter::load_bucket, applied to a row that was found: capacity
comes from the RateLimit kind and refill_time_per_token is the kind's
UNDIVIDED refill_duration (the source stores K::refill_duration() verbatim
here, unlike RateBucket::new which divides it by the capacity — a hydrated
bucket therefore earns one token per full window); token_count and
last_refill are copied from the saved row (token_count via an as-usize
cast).  No clamping is applied. -/
def loadBucket (K : RateLimitKind) (saved : SavedBucket) : RateBucket :=
  { capacity := K.capacity
    refill_time_per_token := K.refill_duration
    token_count := usizeOfInt saved.token_count
    last_refill := saved.last_refill }

/-- Key of the buckets DashMap: (UserId, TypeId). -/
def BucketKey : Type := Nat × Nat
deriving instance DecidableEq for BucketKey

/-- The buckets DashMap, modelled as an association list. -/
def BucketMap : Type := List (BucketKey × RateBucket)

/-- Map lookup. -/
def lookupB (bs : BucketMap) (k : BucketKey) : Option RateBucket :=
  match bs with
  | [] => none
  | (k1, b) :: rest => if k1 = k then some b else lookupB rest k

/-- Map insert; replaces any existing entry for the key (DashMap::insert
semantics). -/
def insertB (bs : BucketMap) (k : BucketKey) (b : RateBucket) : BucketMap :=
  match bs with
  | [] => [(k, b)]
  | (k1, b1) :: rest =>
    if k1 = k then (k, b) :: rest else (k1, b1) :: insertB rest k b

/-- Map membership (DashMap::contains_key). -/
def containsB (bs : BucketMap) (k : BucketKey) : Bool :=
  (lookupB bs k).isSome

/-- The payload of the save_rate_bucket call that check_internal spawns:
user id, the kind's db_name, token_count as i32, and last_refill. -/
structure SaveReq where
  user_id : Nat
  db_name : String
  token_count : Int
  last_refill : Int
deriving DecidableEq

/-- Hydration step of RateLimiter::check_internal (lines 50-55): when the
key is absent from the cache, consult the database read outcome; a row found
is loaded and inserted, while a read error (log_err gives none) or an absent
row leaves the cache unchanged.  When the key is already cached the database
is not consulted. -/
def hydrate (K : RateLimitKind) (user : Nat)
    (dbRead : Except Unit (Option SavedBucket)) (bs : BucketMap) : BucketMap :=
  if containsB bs (user, K.tid) then bs
  else
    match dbRead with
    | Except.ok (some saved) => insertB bs (user, K.tid) (loadBucket K saved)
    | Except.ok none => bs
    | Except.error _ => bs

/-- The entry(...).or_insert_with(...) step of check_internal (lines 57-68):
return the cached bucket for the key, inserting a fresh full bucket anchored
at now if none is present. -/
def getOrInsert (K : RateLimitKind) (user : Nat) (now : Int) (bs : BucketMap) :
    RateBucket × BucketMap :=
  match lookupB bs (user, K.tid) with
  | some b => (b, bs)
  | none =>
    let b := RateBucket.new K.capacity K.refill_duration now
    (b, insertB bs (user, K.tid) b)

/-- The bucket that check_internal ends up calling allow on, given the cache
contents and the database read outcome. -/
def selectedBucket (K : RateLimitKind) (user : Nat) (now : Int)
    (dbRead : Except Unit (Option SavedBucket)) (bs : BucketMap) : RateBucket :=
  (getOrInsert K user now (hydrate K user dbRead bs)).1

/-- RateLimiter::check_internal.  Inputs beyond the source arguments make the
effects explicit: dbRead is the outcome of the (at most one) database read,
dbWrite gives the eventual outcome of the spawned save_rate_bucket call (the
spawned task applies log_err to it, discarding it, so it cannot influence
anything).  The result is the returned Result (error when the bucket denied),
the updated cache, and the list of save requests the call spawned; none models
a panic inside allow. -/
def checkInternal (K : RateLimitKind) (user : Nat) (now : Int)
    (dbRead : Except Unit (Option SavedBucket))
    (dbWrite : SaveReq → Except Unit Unit)
    (bs : BucketMap) :
    Option (Except Unit Unit × BucketMap × List SaveReq) :=
  let bs1 := hydrate K user dbRead bs
  let pair := getOrInsert K user now bs1
  match RateBucket.allow pair.1 now with
  | none => none
  | some (allowed, b1) =>
    let save : SaveReq :=
      { user_id := user
        db_name := K.db_name
        token_count := i32OfNat b1.token_count
        last_refill := b1.last_refill }
    let _ := dbWrite save
    some (if allowed then Except.ok () else Except.error (),
          insertB pair.2 (user, K.tid) b1,
          [save])

/-- Subscription tier enumeration (rpc proto Plan). -/
inductive Plan where
  | free : Plan
  | zedPro : Plan
deriving DecidableEq

/-- The billing_preference database model, restricted to the field token.rs
reads: max_monthly_llm_usage_spending_in_cents, an i32. -/
structure BillingPreferenceModel where
  max_monthly_llm_usage_spending_in_cents : Int
deriving DecidableEq

/-- Process configuration, restricted to the field token.rs reads. -/
structure Config where
  llm_api_secret : Option String
deriving DecidableEq

/-- LlmTokenClaims from token.rs.  iat and exp are u64 second timestamps;
user_id is the proto form of UserId (u64); max_monthly_spend_in_cents is a
u32. -/
structure LlmTokenClaims where
  iat : Nat
  exp : Nat
  jti : String
  user_id : Nat
  github_user_login : String
  is_staff : Bool
  has_llm_closed_beta_feature_flag : Bool
  has_llm_subscription : Bool
  max_monthly_spend_in_cents : Nat
  plan : Plan
deriving DecidableEq

/-- LLM_TOKEN_LIFETIME, in seconds. -/
def LLM_TOKEN_LIFETIME : Nat := 60 * 60

/-- Modelled from the spec: DEFAULT_MAX_MONTHLY_SPEND lives in the llm module
of collab, which is not among the provided sources; the spec only calls it a
system-wide default constant (a number of cents), so its value is left as an
arbitrary fixed constant. -/
def DEFAULT_MAX_MONTHLY_SPEND : Nat := 1000

/-- Model of a u32 cast of an i32 value (two's-complement wrap into 32
bits). -/
def u32OfInt (x : Int) : Nat := (x % (2 ^ 32 : Int)).toNat

/-- Modelled from the spec: the signature material produced by the
jsonwebtoken crate (not part of this repository).  The spec requires a
cryptographically sound MAC over the serialized claims keyed by the secret;
it is modelled ideally as the pair of the secret and the claims, so that a
signature verifies exactly when the same secret signed these exact claims. -/
def mkSignature (secret : String) (claims : LlmTokenClaims) :
    String × LlmTokenClaims :=
  (secret, claims)

/-- Modelled from the spec: the encoded credential string returned by
jsonwebtoken::encode, kept structured as the claims plus the signature
material (the spec treats the string as opaque, understood only by
Sign/Verify). -/
structure SignedToken where
  claims : LlmTokenClaims
  sig : String × LlmTokenClaims
deriving DecidableEq

/-- The error enum of LlmTokenClaims::validate.  Expired corresponds to the
ExpiredSignature kind; JwtError is the generic invalid class covering every
other decode error; Other carries anyhow errors such as a missing secret. -/
inductive ValidateLlmTokenError where
  | Expired : ValidateLlmTokenError
  | JwtError : ValidateLlmTokenError
  | Other : ValidateLlmTokenError
deriving DecidableEq

/-- LlmTokenClaims::create.  The ambient effects of the source are explicit
parameters: now is the issuance instant in whole seconds (Utc::now at second
resolution) and jti the freshly generated uuid.  Fails when no secret is
provisioned; otherwise builds the claims record exactly as the source does
and signs it (the signing step is modelled from the spec, see mkSignature). -/
def LlmTokenClaims.create (user_id : Nat) (github_user_login : String)
    (is_staff : Bool) (billing_preferences : Option BillingPreferenceModel)
    (has_llm_closed_beta_feature_flag : Bool) (has_llm_subscription : Bool)
    (plan : Plan) (config : Config) (now : Nat) (jti : String) :
    Except String SignedToken :=
  match config.llm_api_secret with
  | none => Except.error "no LLM API secret"
  | some secret =>
    let claims : LlmTokenClaims :=
      { iat := now
        exp := now + LLM_TOKEN_LIFETIME
        jti := jti
        user_id := user_id
        github_user_login := github_user_login
        is_staff := is_staff
        has_llm_closed_beta_feature_flag := has_llm_closed_beta_feature_flag
        has_llm_subscription := has_llm_subscription
        max_monthly_spend_in_cents :=
          match billing_preferences with
          | none => DEFAULT_MAX_MONTHLY_SPEND
          | some preferences =>
            u32OfInt preferences.max_monthly_llm_usage_spending_in_cents
        plan := plan }
    Except.ok { claims := claims, sig := mkSignature secret claims }

/-- LlmTokenClaims::validate at instant now (whole seconds).  The decode
performed by the jsonwebtoken crate is modelled from the spec: the signature
is verified first (failure is the generic invalid class), then the expiry
window is checked — per the spec, a credential verified strictly after exp is
Expired; a missing secret is an anyhow error (Other), as in the source. -/
def LlmTokenClaims.validate (tok : SignedToken) (config : Config) (now : Nat) :
    Except ValidateLlmTokenError LlmTokenClaims :=
  match config.llm_api_secret with
  | none => Except.error ValidateLlmTokenError.Other
  | some secret =>
    if tok.sig = mkSignature secret tok.claims then
      if tok.claims.exp < now then
        Except.error ValidateLlmTokenError.Expired
      else
        Except.ok tok.claims
    else
      Except.error ValidateLlmTokenError.JwtError

/-!
Operational model of the cache-population race in check_internal, for two
tasks A and B running check_internal concurrently for the same
(user, TypeId) key.  Shared state is the DashMap entry for that key and the
store of live bucket instances (an Arc of Mutex cell is identified by the
index at which it was allocated); each task's private state is its program
counter, whether its contains_key probe missed, the instance its entry(...)
call handed it, and the boolean its allow call returned.  Each atomic step
corresponds to one DashMap or Mutex operation of the source:
step 0 the contains_key probe (line 50), step 1 the hydration insert
(lines 51-54, executed only on a miss and only when the database read found
a row; DashMap::insert replaces any existing entry), step 2 the
entry(...).or_insert_with(...) lookup (lines 57-68), step 3 the
lock-allow-unlock block (lines 70-74).
-/

/-- Private state of one task running check_internal. -/
structure RaceProc where
  pc : Nat
  missed : Bool
  inst : Option Nat
  res : Option Bool
deriving DecidableEq

/-- Shared plus private state of the two racing tasks. -/
structure RaceState where
  map : Option Nat
  insts : List RateBucket
  procA : RaceProc
  procB : RaceProc
deriving DecidableEq

/-- One atomic step of a single task, acting on the shared map and instance
store; saved is the row the database read returned to both tasks (both miss
the cache, so both read).  none models a panic inside allow. -/
def procStep (K : RateLimitKind) (saved : Option SavedBucket) (now : Int)
    (map : Option Nat) (insts : List RateBucket) (p : RaceProc) :
    Option (Option Nat × List RateBucket × RaceProc) :=
  match p.pc with
  | 0 => some (map, insts, { p with missed := map.isNone, pc := 1 })
  | 1 =>
    if p.missed then
      match saved with
      | some s =>
        some (some insts.length, insts ++ [loadBucket K s], { p with pc := 2 })
      | none => some (map, insts, { p with pc := 2 })
    else some (map, insts, { p with pc := 2 })
  | 2 =>
    match map with
    | some id => some (map, insts, { p with inst := some id, pc := 3 })
    | none =>
      some (some insts.length,
            insts ++ [RateBucket.new K.capacity K.refill_duration now],
            { p with inst := some insts.length, pc := 3 })
  | 3 =>
    match p.inst with
    | some id =>
      match insts[id]? with
      | some b =>
        match RateBucket.allow b now with
        | none => none
        | some (r, b1) =>
          some (map, insts.set id b1, { p with res := some r, pc := 4 })
      | none => some (map, insts, { p with pc := 4 })
    | none => some (map, insts, { p with pc := 4 })
  | _ => some (map, insts, p)

/-- One step of the interleaved system: true steps task A, false steps
task B. -/
def raceStep (K : RateLimitKind) (saved : Option SavedBucket) (now : Int)
    (s : RaceState) (isA : Bool) : Option RaceState :=
  if isA then
    match procStep K saved now s.map s.insts s.procA with
    | none => none
    | some (m, is, p) => some { s with map := m, insts := is, procA := p }
  else
    match procStep K saved now s.map s.insts s.procB with
    | none => none
    | some (m, is, p) => some { s with map := m, insts := is, procB := p }

/-- Run the two tasks under a given interleaving schedule. -/
def raceRun (K : RateLimitKind) (saved : Option SavedBucket) (now : Int)
    (s : RaceState) : List Bool → Option RaceState
  | [] => some s
  | c :: rest =>
    match raceStep K saved now s c with
    | none => none
    | some s1 => raceRun K saved now s1 rest

/-- Initial race state: empty cache, no instances, both tasks at their
contains_key probe. -/
def raceInit : RaceState :=
  { map := none
    insts := []
    procA := { pc := 0, missed := false, inst := none, res := none }
    procB := { pc := 0, missed := false, inst := none, res := none } }

/-- Concrete resource kind for the race scenario: capacity 2, refill window
2 seconds (the kind used by the source's own test). -/
def raceKind : RateLimitKind :=
  { tid := 0, capacity := 2, refill_duration := 2000000000, db_name := "rate-limit-a" }

/-- Concrete persisted row for the race scenario: one token left, refilled
at instant 0. -/
def raceSaved : SavedBucket := { token_count := 1, last_refill := 0 }

/-- The racing schedule: both tasks probe contains_key before either
inserts; then each hydrates, reads the entry and calls allow. -/
def raceScheduleBad : List Bool := [true, false, true, true, true, false, false, false]

/-- The serialized schedule: task A runs to completion before task B
starts. -/
def raceScheduleSeq : List Bool := [true, true, true, true, false, false, false, false]

/-!
Theorems.  Helper lemmas about single steps come first, then the claim
theorems C1 .. C10 with their witnesses and counterexamples.
-/

/-- A refill before one token's duration has elapsed changes nothing. -/
theorem RateBucket.refill_of_lt (b : RateBucket) (now : Int)
    (h : now - b.last_refill < b.refill_time_per_token) :
    b.refill now = some b := by
  simp only [RateBucket.refill]
  rw [if_neg (not_le.mpr h)]

/-- A refill at the very instant of the last refill changes nothing, provided
one token takes a positive duration to earn. -/
theorem RateBucket.refill_self (b : RateBucket)
    (h : 0 < b.refill_time_per_token) :
    b.refill b.last_refill = some b :=
  RateBucket.refill_of_lt b b.last_refill (by simpa using h)

/-- An allow at the very instant of the last refill is a pure decrement. -/
theorem RateBucket.allow_self (b : RateBucket)
    (h : 0 < b.refill_time_per_token) :
    b.allow b.last_refill =
      if 0 < b.token_count then
        some (true, { b with token_count := b.token_count - 1 })
      else
        some (false, b) := by
  simp only [RateBucket.allow]
  rw [RateBucket.refill_self b h]

/-- Unfolding equation of allowN for one more call, with the remaining call
count left opaque. -/
theorem allowN_succ (b : RateBucket) (now : Int) (n : Nat) :
    allowN b now (n + 1) =
      match RateBucket.allow b now with
      | none => none
      | some (r, b1) =>
        match allowN b1 now n with
        | none => none
        | some (rs, b2) => some (r :: rs, b2) := rfl

/-- While tokens remain, consecutive allows at the instant of the last
refill all succeed, each consuming one token. -/
theorem allowN_all_true (k : Nat) :
    ∀ (b : RateBucket) (now : Int), b.last_refill = now →
      0 < b.refill_time_per_token → k ≤ b.token_count →
      allowN b now k =
        some (List.replicate k true, { b with token_count := b.token_count - k }) := by
  induction k with
  | zero =>
    intro b now hlr h hk
    simp [allowN]
  | succ n ih =>
    intro b now hlr h hk
    have hpos : 0 < b.token_count := Nat.lt_of_lt_of_le (Nat.succ_pos n) hk
    have hstep : RateBucket.allow b now =
        some (true, { b with token_count := b.token_count - 1 }) := by
      rw [← hlr, RateBucket.allow_self b h, if_pos hpos]
    have hrec := ih { b with token_count := b.token_count - 1 } now hlr h
      (show n ≤ b.token_count - 1 by omega)
    rw [allowN_succ]
    simp only [hstep, hrec]
    have harith : b.token_count - 1 - n = b.token_count - (n + 1) := by omega
    rw [List.replicate_succ]
    simp only [harith]

/-- A bucket holding exactly c tokens answers c allows with true and the
next one with false, all at the instant of the last refill. -/
theorem allowN_exhaust (c : Nat) :
    ∀ (b : RateBucket) (now : Int), b.last_refill = now →
      0 < b.refill_time_per_token → b.token_count = c →
      allowN b now (c + 1) =
        some (List.replicate c true ++ [false], { b with token_count := 0 }) := by
  induction c with
  | zero =>
    intro b now hlr h hc
    have hstep : RateBucket.allow b now = some (false, b) := by
      rw [← hlr, RateBucket.allow_self b h, if_neg (by omega)]
    simp only [allowN, hstep]
    simp [← hc]
  | succ n ih =>
    intro b now hlr h hc
    have hpos : 0 < b.token_count := by omega
    have hstep : RateBucket.allow b now =
        some (true, { b with token_count := b.token_count - 1 }) := by
      rw [← hlr, RateBucket.allow_self b h, if_pos hpos]
    have hrec := ih { b with token_count := b.token_count - 1 } now hlr h
      (show b.token_count - 1 = n by omega)
    rw [allowN_succ]
    simp only [hstep, hrec]
    rw [List.replicate_succ, List.cons_append]

/-- The as-i32 cast of a usize is the identity below 2^31. -/
theorem i32OfNat_of_lt (n : Nat) (h : n < 2 ^ 31) : i32OfNat n = (n : Int) := by
  unfold i32OfNat
  rw [Nat.mod_eq_of_lt (by omega)]
  rw [if_pos h]

/-- Below capacity 2^31, new derives refill_time_per_token as the window
divided by the capacity itself. -/
theorem new_of_capacity_lt (C : Nat) (W t : Int) (hC2 : C < 2 ^ 31) :
    RateBucket.new C W t = RateBucket.mk C C (Int.tdiv W (C : Int)) t := by
  unfold RateBucket.new
  rw [i32OfNat_of_lt C hC2]

/-- C1 counterexample: take capacity C = 1 and refill window W = 0.  The
claim says the first allow call at the creation instant returns true (and the
second false), but the call does not return at all: refill sees elapsed 0 >=
refill_time_per_token 0 and divides by a zero number of milliseconds, a
panic. -/
theorem c1_counterexample :
    (allowN (RateBucket.new 1 0 0) 0 2).map (fun p => p.1) ≠ some [true, false] := by
  decide

/-- C1 (amended): for every capacity C with 1 <= C < 2^31 (so the source's
as-i32 cast of the capacity is the identity) and refill window W whose
per-token refill duration W / C is positive, a bucket freshly created at
full capacity allows exactly C consecutive allow calls at its creation
instant before the (C+1)th returns false.  (At capacity 2^32 and beyond the
cast wraps: the constructor itself can divide by a wrapped-to-zero divisor
and panic, so no allow result is returned at all.) -/
theorem c1_fresh_bucket_allows_exactly_capacity (C : Nat) (W t : Int)
    (hC : 1 ≤ C) (hC2 : C < 2 ^ 31) (hW : 0 < Int.tdiv W (C : Int)) :
    (allowN (RateBucket.new C W t) t (C + 1)).map (fun p => p.1) =
      some (List.replicate C true ++ [false]) := by
  rw [new_of_capacity_lt C W t hC2]
  rw [allowN_exhaust C (RateBucket.mk C C (Int.tdiv W (C : Int)) t) t rfl hW rfl]
  rfl

/-- C1 witness: capacity 2, refill window 2 seconds, created at instant 0. -/
theorem c1_witness :
    (allowN (RateBucket.new 2 2000000000 0) 0 3).map (fun p => p.1) =
      some (List.replicate 2 true ++ [false]) :=
  c1_fresh_bucket_allows_exactly_capacity 2 2000000000 0 (by decide) (by decide)
    (by decide)

/-- A successful refill keeps token_count within capacity and leaves
capacity unchanged. -/
theorem refill_bound (b : RateBucket) (now : Int) (b1 : RateBucket)
    (h : b.refill now = some b1) (hb : b.token_count ≤ b.capacity) :
    b1.token_count ≤ b1.capacity ∧ b1.capacity = b.capacity := by
  simp only [RateBucket.refill] at h
  split at h
  · split at h
    · exact absurd h (by simp)
    · cases h
      exact ⟨Nat.min_le_right _ _, rfl⟩
  · cases h
    exact ⟨hb, rfl⟩

/-- A successful allow keeps token_count within capacity and leaves capacity
unchanged. -/
theorem allow_bound (b : RateBucket) (now : Int) (r : Bool) (b1 : RateBucket)
    (h : b.allow now = some (r, b1)) (hb : b.token_count ≤ b.capacity) :
    b1.token_count ≤ b1.capacity ∧ b1.capacity = b.capacity := by
  simp only [RateBucket.allow] at h
  cases hr : RateBucket.refill b now with
  | none => rw [hr] at h; exact absurd h (by simp)
  | some b2 =>
    rw [hr] at h
    dsimp only at h
    have hb2 := refill_bound b now b2 hr hb
    by_cases hcnt : 0 < b2.token_count
    · rw [if_pos hcnt] at h
      cases h
      exact ⟨Nat.le_trans (Nat.sub_le _ _) hb2.1, hb2.2⟩
    · rw [if_neg hcnt] at h
      cases h
      exact hb2

/-- Any successful sequence of allow/refill calls keeps token_count within
capacity and leaves capacity unchanged. -/
theorem runOps_bound :
    ∀ (ops : List RLOp) (b b1 : RateBucket), runOps b ops = some b1 →
      b.token_count ≤ b.capacity →
      b1.token_count ≤ b1.capacity ∧ b1.capacity = b.capacity := by
  intro ops
  induction ops with
  | nil =>
    intro b b1 h hb
    cases h
    exact ⟨hb, rfl⟩
  | cons op rest ih =>
    intro b b1 h hb
    cases op with
    | opAllow n =>
      simp only [runOps] at h
      cases ha : RateBucket.allow b n with
      | none => rw [ha] at h; exact absurd h (by simp)
      | some p =>
        rw [ha] at h
        obtain ⟨r, b2⟩ := p
        have hb2 := allow_bound b n r b2 ha hb
        have hrest := ih b2 b1 h hb2.1
        exact ⟨hrest.1, hrest.2.trans hb2.2⟩
    | opRefill n =>
      simp only [runOps] at h
      cases ha : RateBucket.refill b n with
      | none => rw [ha] at h; exact absurd h (by simp)
      | some b2 =>
        rw [ha] at h
        have hb2 := refill_bound b n b2 ha hb
        have hrest := ih b2 b1 h hb2.1
        exact ⟨hrest.1, hrest.2.trans hb2.2⟩

/-- C2: starting from a bucket whose state satisfies token_count <= capacity
with capacity >= 1, any sequence of allow and refill calls over any
monotonically non-decreasing sequence of instants that completes without
panicking preserves 0 <= token_count <= capacity (token_count is a Nat, so
non-negativity is carried by the type: the source guards the decrement with
token_count > 0, so the usize never underflows). -/
theorem c2_token_count_invariant (b : RateBucket) (ops : List RLOp)
    (b1 : RateBucket) (hcap : 1 ≤ b.capacity)
    (hinv : b.token_count ≤ b.capacity)
    (hmono : List.Chain' (fun x y => x ≤ y) (ops.map RLOp.time))
    (hrun : runOps b ops = some b1) :
    b1.token_count ≤ b1.capacity ∧ b1.capacity = b.capacity :=
  runOps_bound ops b b1 hrun hinv

/-- C2 witness: capacity 2, window 2 seconds; allow twice at instant 0,
refill after one second, allow once more. -/
theorem c2_witness :
    (RateBucket.mk 2 0 1000000000 1000000000).token_count ≤
        (RateBucket.mk 2 0 1000000000 1000000000).capacity
    ∧ (RateBucket.mk 2 0 1000000000 1000000000).capacity =
        (RateBucket.new 2 2000000000 0).capacity :=
  c2_token_count_invariant (RateBucket.new 2 2000000000 0)
    [RLOp.opAllow 0, RLOp.opAllow 0, RLOp.opRefill 1000000000, RLOp.opAllow 1000000000]
    (RateBucket.mk 2 0 1000000000 1000000000)
    (by decide) (by decide)
    (by norm_num [List.map, List.chain'_cons, RLOp.time]) (by decide)

/-- A duration of at least one millisecond has a positive whole-millisecond
count. -/
theorem one_le_numMilliseconds (r : Int) (h : nsPerMs ≤ r) :
    1 ≤ numMilliseconds r := by
  unfold numMilliseconds
  rw [Int.tdiv_eq_ediv (le_trans (by norm_num [nsPerMs]) h) (by norm_num [nsPerMs])]
  rw [Int.le_ediv_iff_mul_le (by norm_num [nsPerMs])]
  simpa using h

/-- Conversely, a duration whose whole-millisecond count is positive is at
least one millisecond long. -/
theorem nsPerMs_le_of_one_le_numMilliseconds (r : Int)
    (h : 1 ≤ numMilliseconds r) : nsPerMs ≤ r := by
  by_contra hlt
  push_neg at hlt
  rcases le_or_lt 0 r with h0 | h0
  · have := Int.tdiv_eq_zero_of_lt h0 hlt
    unfold numMilliseconds at h
    omega
  · have hnp : Int.tdiv r nsPerMs ≤ 0 := by
      rw [show r = -(-r) by ring, Int.neg_tdiv]
      have : 0 ≤ Int.tdiv (-r) nsPerMs := Int.tdiv_nonneg (by omega) (by norm_num [nsPerMs])
      omega
    unfold numMilliseconds at h
    omega

/-- C3 counterexample: a bucket with capacity 100 over a 150 ms window has
refill_time_per_token = 1.5 ms.  Refilling an empty such bucket 3 ms after
its last refill credits 3 tokens (the code divides whole milliseconds:
3 / 1 = 3), while the claimed formula floor(elapsed / refill_time_per_token)
= floor(3 ms / 1.5 ms) credits only 2. -/
theorem c3_counterexample :
    RateBucket.refill (RateBucket.mk 100 0 1500000 0) 3000000 =
      some (RateBucket.mk 100 3 1500000 3000000)
    ∧ min (0 + (Int.tdiv 3000000 1500000).toNat) 100 = 2
    ∧ (3 : Nat) ≠ 2 := by
  decide

/-- C3 (amended): refill(now) is a no-op when now - last_refill <
refill_time_per_token (both token_count and last_refill unchanged); when
now - last_refill >= refill_time_per_token, provided refill_time_per_token
amounts to at least one whole millisecond (otherwise the division panics)
and the usize addition token_count + new_tokens does not overflow (otherwise
the source wraps, or panics under overflow checks, instead of computing the
stated sum), it sets token_count to
min(token_count + floor(elapsed_ms / refill_ms), capacity) and advances
last_refill to now, where elapsed_ms and refill_ms are the durations
truncated to whole milliseconds before dividing.  The elapsed hypothesis
only asks that the whole-millisecond count fit in an i64, which — as
num_milliseconds returns an i64 — holds for every chrono-representable
elapsed duration. -/
theorem c3_refill_ms_granularity (b : RateBucket) (now : Int) :
    (now - b.last_refill < b.refill_time_per_token →
      RateBucket.refill b now = some b)
    ∧ (b.refill_time_per_token ≤ now - b.last_refill →
        1 ≤ numMilliseconds b.refill_time_per_token →
        numMilliseconds (now - b.last_refill) < 2 ^ 63 →
        b.token_count + (numMilliseconds (now - b.last_refill) /
          numMilliseconds b.refill_time_per_token).toNat < 2 ^ 64 →
        RateBucket.refill b now =
          some { b with
                 token_count := min
                   (b.token_count +
                     (numMilliseconds (now - b.last_refill) /
                       numMilliseconds b.refill_time_per_token).toNat)
                   b.capacity
                 last_refill := now }) := by
  refine ⟨fun h => RateBucket.refill_of_lt b now h, fun hge hms hlt hnoov => ?_⟩
  have hrpos : nsPerMs ≤ b.refill_time_per_token :=
    nsPerMs_le_of_one_le_numMilliseconds _ hms
  have hel0 : 0 ≤ now - b.last_refill :=
    le_trans (le_trans (by norm_num [nsPerMs]) hrpos) hge
  have hem0 : 0 ≤ numMilliseconds (now - b.last_refill) :=
    Int.tdiv_nonneg hel0 (by norm_num [nsPerMs])
  have hrm0 : 0 ≤ numMilliseconds b.refill_time_per_token := by omega
  have hdiv : Int.tdiv (numMilliseconds (now - b.last_refill))
        (numMilliseconds b.refill_time_per_token)
      = numMilliseconds (now - b.last_refill) /
          numMilliseconds b.refill_time_per_token :=
    Int.tdiv_eq_ediv hem0 hrm0
  have hq0 : 0 ≤ numMilliseconds (now - b.last_refill) /
      numMilliseconds b.refill_time_per_token :=
    Int.ediv_nonneg hem0 hrm0
  have hqlt : numMilliseconds (now - b.last_refill) /
      numMilliseconds b.refill_time_per_token < 2 ^ 64 := by
    have h2 : numMilliseconds (now - b.last_refill) /
        numMilliseconds b.refill_time_per_token ≤
        numMilliseconds (now - b.last_refill) :=
      Int.ediv_le_self _ hem0
    omega
  have hcast : usizeOfInt (Int.tdiv (numMilliseconds (now - b.last_refill))
        (numMilliseconds b.refill_time_per_token))
      = (numMilliseconds (now - b.last_refill) /
          numMilliseconds b.refill_time_per_token).toNat := by
    rw [hdiv]
    unfold usizeOfInt
    rw [Int.emod_eq_of_lt hq0 hqlt]
  have hadd : usizeAdd b.token_count
        ((numMilliseconds (now - b.last_refill) /
          numMilliseconds b.refill_time_per_token).toNat)
      = b.token_count + (numMilliseconds (now - b.last_refill) /
          numMilliseconds b.refill_time_per_token).toNat := by
    unfold usizeAdd
    exact Nat.mod_eq_of_lt hnoov
  simp only [RateBucket.refill]
  rw [if_pos hge, if_neg (show ¬ numMilliseconds b.refill_time_per_token = 0 by omega)]
  rw [hcast, hadd]

/-- C3 witness: a no-op refill 5 ns after the last refill with a 1 s
per-token duration, and a crediting refill exactly 1 s after the last refill
on an empty bucket of capacity 2. -/
theorem c3_witness :
    RateBucket.refill (RateBucket.mk 2 1 1000000000 0) 5 =
      some (RateBucket.mk 2 1 1000000000 0)
    ∧ RateBucket.refill (RateBucket.mk 2 0 1000000000 0) 1000000000 =
      some (RateBucket.mk 2 1 1000000000 1000000000) :=
  ⟨(c3_refill_ms_granularity (RateBucket.mk 2 1 1000000000 0) 5).1 (by decide),
   (c3_refill_ms_granularity (RateBucket.mk 2 0 1000000000 0) 1000000000).2
     (by decide) (by decide) (by decide) (by decide)⟩

/-- C4: a credential produced by LlmTokenClaims::create under a provisioned
secret, when validated with the same configuration at any instant strictly
after its expiry (exp is issuance + 1 hour), yields the Expired error
variant — not the generic JwtError class.  (The decode internals are
modelled from the spec, see LlmTokenClaims.validate.) -/
theorem c4_expired_not_generic_invalid (user_id : Nat) (login : String)
    (staff : Bool) (bp : Option BillingPreferenceModel) (beta sub : Bool)
    (plan : Plan) (config : Config) (now : Nat) (jti : String)
    (tok : SignedToken)
    (hcreate : LlmTokenClaims.create user_id login staff bp beta sub plan
        config now jti = Except.ok tok)
    (t : Nat) (ht : tok.claims.exp < t) :
    LlmTokenClaims.validate tok config t =
      Except.error ValidateLlmTokenError.Expired := by
  unfold LlmTokenClaims.create at hcreate
  cases hc : config.llm_api_secret with
  | none =>
    rw [hc] at hcreate
    exact absurd hcreate (by simp)
  | some secret =>
    rw [hc] at hcreate
    dsimp only at hcreate
    injection hcreate with hcreate
    unfold LlmTokenClaims.validate
    rw [hc]
    rw [← hcreate]
    dsimp only
    rw [if_pos rfl, if_pos (by rw [← hcreate] at ht; exact ht)]

/-- C4 witness: a token minted at instant 0 (expiry 3600) validated at
instant 3601. -/
theorem c4_witness :
    LlmTokenClaims.validate
      (SignedToken.mk
        (LlmTokenClaims.mk 0 3600 "j" 1 "login" false false false 1000 Plan.free)
        ("s", LlmTokenClaims.mk 0 3600 "j" 1 "login" false false false 1000 Plan.free))
      (Config.mk (some "s")) 3601 =
      Except.error ValidateLlmTokenError.Expired :=
  c4_expired_not_generic_invalid 1 "login" false none false false Plan.free
    (Config.mk (some "s")) 0 "j"
    (SignedToken.mk
      (LlmTokenClaims.mk 0 3600 "j" 1 "login" false false false 1000 Plan.free)
      ("s", LlmTokenClaims.mk 0 3600 "j" 1 "login" false false false 1000 Plan.free))
    rfl 3601 (by decide)

/-- C7: validating a credential produced by create with the same secret at
any instant at or before expiry returns exactly the claims record that
create constructed from its issuance inputs; the signature material is not
part of the claims.  (Sign/decode internals are modelled from the spec.) -/
theorem c7_create_validate_roundtrip (user_id : Nat) (login : String)
    (staff : Bool) (bp : Option BillingPreferenceModel) (beta sub : Bool)
    (plan : Plan) (secret : String) (now : Nat) (jti : String)
    (tok : SignedToken)
    (hcreate : LlmTokenClaims.create user_id login staff bp beta sub plan
        (Config.mk (some secret)) now jti = Except.ok tok)
    (t : Nat) (ht : t ≤ tok.claims.exp) :
    LlmTokenClaims.validate tok (Config.mk (some secret)) t =
      Except.ok tok.claims
    ∧ tok.claims =
        LlmTokenClaims.mk now (now + LLM_TOKEN_LIFETIME) jti user_id login
          staff beta sub
          (match bp with
           | none => DEFAULT_MAX_MONTHLY_SPEND
           | some p => u32OfInt p.max_monthly_llm_usage_spending_in_cents)
          plan := by
  unfold LlmTokenClaims.create at hcreate
  dsimp only at hcreate
  injection hcreate with hcreate
  subst hcreate
  dsimp only at ht
  constructor
  · unfold LlmTokenClaims.validate
    dsimp only
    rw [if_pos rfl, if_neg (show ¬ now + LLM_TOKEN_LIFETIME < t by omega)]
  · cases bp <;> rfl

/-- C7 witness: a token minted at instant 100 for user 7 with a billing
preference of 2500 cents, validated at its expiry instant 3700. -/
theorem c7_witness :
    LlmTokenClaims.validate
      (SignedToken.mk
        (LlmTokenClaims.mk 100 3700 "j2" 7 "me" true true false 2500 Plan.zedPro)
        ("s", LlmTokenClaims.mk 100 3700 "j2" 7 "me" true true false 2500 Plan.zedPro))
      (Config.mk (some "s")) 3700 =
      Except.ok
        (LlmTokenClaims.mk 100 3700 "j2" 7 "me" true true false 2500 Plan.zedPro)
    ∧ (LlmTokenClaims.mk 100 3700 "j2" 7 "me" true true false 2500 Plan.zedPro) =
        LlmTokenClaims.mk 100 3700 "j2" 7 "me" true true false 2500 Plan.zedPro :=
  c7_create_validate_roundtrip 7 "me" true (some (BillingPreferenceModel.mk 2500))
    true false Plan.zedPro "s" 100 "j2"
    (SignedToken.mk
      (LlmTokenClaims.mk 100 3700 "j2" 7 "me" true true false 2500 Plan.zedPro)
      ("s", LlmTokenClaims.mk 100 3700 "j2" 7 "me" true true false 2500 Plan.zedPro))
    rfl 3700 (by decide)

/-- C5: check_internal fails exactly when the selected bucket's allow(now)
returns false (first conjunct: the returned Result is the image of the allow
outcome, for every database read outcome and cache state), and a failed
database read during hydration is handled identically to an absent row
— it never fails the check (second conjunct). -/
theorem c5_error_iff_rate_limited (K : RateLimitKind) (user : Nat) (now : Int)
    (dbRead : Except Unit (Option SavedBucket))
    (dbWrite : SaveReq → Except Unit Unit) (bs : BucketMap) :
    ((checkInternal K user now dbRead dbWrite bs).map (fun o => o.1)
      = (RateBucket.allow (selectedBucket K user now dbRead bs) now).map
          (fun p => if p.1 then Except.ok () else Except.error ()))
    ∧ checkInternal K user now (Except.error ()) dbWrite bs
        = checkInternal K user now (Except.ok none) dbWrite bs := by
  constructor
  · unfold checkInternal selectedBucket
    cases h : RateBucket.allow (getOrInsert K user now (hydrate K user dbRead bs)).1 now with
    | none => simp [h]
    | some pr =>
      obtain ⟨r, b1⟩ := pr
      simp only [h, Option.map_some]
      cases r <;> rfl
  · rfl

/-- C6: every check_internal call schedules exactly one save_rate_bucket
write, keyed by the user id and the kind's db_name and carrying the
token_count (cast to i32) and last_refill captured from the bucket
immediately after allow — for every database read outcome, hence regardless
of whether the check was allowed or denied (first conjunct); and the
eventual outcome of that write influences nothing the call returns (second
conjunct: the entire output is the same for any two write outcomes). -/
theorem c6_exactly_one_save (K : RateLimitKind) (user : Nat) (now : Int)
    (dbRead : Except Unit (Option SavedBucket))
    (dbWrite w1 w2 : SaveReq → Except Unit Unit) (bs : BucketMap) :
    ((checkInternal K user now dbRead dbWrite bs).map (fun o => o.2.2)
      = (RateBucket.allow (selectedBucket K user now dbRead bs) now).map
          (fun p => [SaveReq.mk user K.db_name (i32OfNat p.2.token_count)
                       p.2.last_refill]))
    ∧ checkInternal K user now dbRead w1 bs
        = checkInternal K user now dbRead w2 bs := by
  constructor
  · unfold checkInternal selectedBucket
    cases h : RateBucket.allow (getOrInsert K user now (hydrate K user dbRead bs)).1 now with
    | none => simp [h]
    | some pr =>
      obtain ⟨r, b1⟩ := pr
      simp [h]
  · rfl

/-- An allow call panics exactly when its inner refill does. -/
theorem allow_ne_none_iff (b : RateBucket) (now : Int) :
    RateBucket.allow b now ≠ none ↔ RateBucket.refill b now ≠ none := by
  simp only [RateBucket.allow]
  cases RateBucket.refill b now with
  | none => simp
  | some b1 =>
    dsimp only
    split <;> simp

/-- C8 counterexample: at capacity C = 2^32 the as-i32 cast of the capacity
wraps to 0, so for the window W = 2^32 * 10^6 ns — whose mathematical W / C
is exactly one millisecond, satisfying the claim's condition — the
constructor divides the window by the wrapped-to-zero divisor and the very
first refill at the creation instant panics (in the Rust source the panic
already happens inside chrono in new), refuting the claim's iff as stated
over every resource kind. -/
theorem c8_counterexample :
    i32OfNat (2 ^ 32) = 0
    ∧ nsPerMs ≤ Int.tdiv (2 ^ 32 * 1000000) ((2 ^ 32 : Nat) : Int)
    ∧ RateBucket.refill (RateBucket.new (2 ^ 32) (2 ^ 32 * 1000000) 0) 0 = none := by
  decide

/-- C8 (amended): for a resource kind with capacity C in 1 <= C < 2^31 — so
the source's as-i32 cast of the capacity is the identity — and refill window
W >= 0, the division inside refill is well-defined — no call of refill
(equivalently, of allow, hence in particular the first allow) on the freshly
created bucket at any instant from creation onward can hit a division by zero
and panic — precisely when the derived refill_time_per_token W / C amounts to
at least one whole millisecond.  For capacities at and beyond 2^31 the cast
wraps, and at capacity a multiple of 2^32 the constructor itself divides by
zero and panics regardless of W. -/
theorem c8_division_welldefined_iff_one_ms (C : Nat) (W t : Int)
    (hC : 1 ≤ C) (hC2 : C < 2 ^ 31) (hW : 0 ≤ W) :
    ((∀ now, t ≤ now → RateBucket.refill (RateBucket.new C W t) now ≠ none)
       ↔ nsPerMs ≤ Int.tdiv W (C : Int))
    ∧ ((∀ now, t ≤ now → RateBucket.allow (RateBucket.new C W t) now ≠ none)
       ↔ nsPerMs ≤ Int.tdiv W (C : Int)) := by
  have hnew := new_of_capacity_lt C W t hC2
  have hr0 : 0 ≤ Int.tdiv W (C : Int) := Int.tdiv_nonneg hW (Int.natCast_nonneg C)
  have main : (∀ now, t ≤ now → RateBucket.refill (RateBucket.new C W t) now ≠ none)
      ↔ nsPerMs ≤ Int.tdiv W (C : Int) := by
    constructor
    · intro hall
      by_contra hlt
      push_neg at hlt
      have h0 : numMilliseconds (Int.tdiv W (C : Int)) = 0 := by
        unfold numMilliseconds
        exact Int.tdiv_eq_zero_of_lt hr0 hlt
      have hin := hall (t + Int.tdiv W (C : Int)) (by omega)
      rw [hnew] at hin
      unfold RateBucket.refill at hin
      dsimp only at hin
      rw [show t + Int.tdiv W (C : Int) - t = Int.tdiv W (C : Int) by omega] at hin
      rw [if_pos le_rfl, if_pos h0] at hin
      exact hin rfl
    · intro hge now hnow
      have hd : ¬ numMilliseconds (Int.tdiv W (C : Int)) = 0 := by
        have := one_le_numMilliseconds _ hge
        omega
      rw [hnew]
      unfold RateBucket.refill
      dsimp only
      by_cases hcase : Int.tdiv W (C : Int) ≤ now - t
      · rw [if_pos hcase, if_neg hd]
        simp
      · rw [if_neg hcase]
        simp
  refine ⟨main, ?_⟩
  constructor
  · intro hall
    exact main.mp (fun now hnow => (allow_ne_none_iff _ now).mp (hall now hnow))
  · intro hge now hnow
    exact (allow_ne_none_iff _ now).mpr (main.mpr hge now hnow)

/-- C8 witness: capacity 2, window 2 seconds, created at instant 0 (the
refill_time_per_token is 1000 whole milliseconds). -/
theorem c8_witness :
    ((∀ now, (0 : Int) ≤ now →
        RateBucket.refill (RateBucket.new 2 2000000000 0) now ≠ none)
       ↔ nsPerMs ≤ Int.tdiv 2000000000 (2 : Int))
    ∧ ((∀ now, (0 : Int) ≤ now →
        RateBucket.allow (RateBucket.new 2 2000000000 0) now ≠ none)
       ↔ nsPerMs ≤ Int.tdiv 2000000000 (2 : Int)) :=
  c8_division_welldefined_iff_one_ms 2 2000000000 0 (by decide) (by decide)
    (by decide)

/-- C9: load_bucket copies token_count and last_refill verbatim from the
persisted row and takes capacity and refill_time_per_token from the resource
kind (refill_time_per_token being the kind's undivided refill window, as the
source stores K::refill_duration() there), with no clamping; hence a
persisted row whose token_count exceeds the kind's capacity hydrates to a
bucket with token_count > capacity that can be allowed more than capacity
consecutive times at the same instant (capacity+1 consecutive allows at the
persisted last_refill instant all succeed, given the kind's refill window is
positive). -/
theorem c9_load_bucket_no_clamping (K : RateLimitKind) (saved : SavedBucket)
    (h1 : K.capacity < usizeOfInt saved.token_count)
    (h2 : 0 < K.refill_duration) :
    (loadBucket K saved).token_count = usizeOfInt saved.token_count
    ∧ (loadBucket K saved).last_refill = saved.last_refill
    ∧ (loadBucket K saved).capacity = K.capacity
    ∧ (loadBucket K saved).refill_time_per_token = K.refill_duration
    ∧ K.capacity < (loadBucket K saved).token_count
    ∧ (allowN (loadBucket K saved) saved.last_refill (K.capacity + 1)).map
        (fun p => p.1) = some (List.replicate (K.capacity + 1) true) := by
  refine ⟨rfl, rfl, rfl, rfl, h1, ?_⟩
  rw [allowN_all_true (K.capacity + 1) (loadBucket K saved) saved.last_refill rfl h2
    (show K.capacity + 1 ≤ usizeOfInt saved.token_count by omega)]
  rfl

/-- C9 witness: a kind of capacity 2 over a 2 second window, hydrated from a
persisted row claiming 5 tokens: the bucket allows 3 consecutive times at
the persisted instant. -/
theorem c9_witness :
    (loadBucket (RateLimitKind.mk 0 2 2000000000 "rate-limit-a")
        (SavedBucket.mk 5 0)).token_count =
      usizeOfInt (SavedBucket.mk 5 0).token_count
    ∧ (loadBucket (RateLimitKind.mk 0 2 2000000000 "rate-limit-a")
        (SavedBucket.mk 5 0)).last_refill = (SavedBucket.mk 5 0).last_refill
    ∧ (loadBucket (RateLimitKind.mk 0 2 2000000000 "rate-limit-a")
        (SavedBucket.mk 5 0)).capacity = 2
    ∧ (loadBucket (RateLimitKind.mk 0 2 2000000000 "rate-limit-a")
        (SavedBucket.mk 5 0)).refill_time_per_token = 2000000000
    ∧ 2 < (loadBucket (RateLimitKind.mk 0 2 2000000000 "rate-limit-a")
        (SavedBucket.mk 5 0)).token_count
    ∧ (allowN (loadBucket (RateLimitKind.mk 0 2 2000000000 "rate-limit-a")
        (SavedBucket.mk 5 0)) 0 3).map (fun p => p.1) =
      some (List.replicate 3 true) :=
  c9_load_bucket_no_clamping (RateLimitKind.mk 0 2 2000000000 "rate-limit-a")
    (SavedBucket.mk 5 0) (by decide) (by decide)

/-- C10: evidence that the cache-population race does not converge on a
single bucket instance.  With a persisted row of one remaining token
(capacity 2), under the interleaving in which both tasks probe contains_key
before either hydrates, each task hydrates its own instance (the second
DashMap::insert replaces the first), reads back its own instance from the
map, and is allowed — both allow calls return true on two distinct
instances, whereas the serialized execution of the same two calls allows
the first and denies the second on the single shared instance. -/
theorem c10_cache_population_race_double_allow :
    ((raceRun raceKind (some raceSaved) 0 raceInit raceScheduleBad).map
        (fun s => (s.procA.res, s.procB.res, s.procA.inst, s.procB.inst))
      = some (some true, some true, some 0, some 1))
    ∧ ((raceRun raceKind (some raceSaved) 0 raceInit raceScheduleSeq).map
        (fun s => (s.procA.res, s.procB.res, s.procA.inst, s.procB.inst))
      = some (some true, some false, some 0, some 0)) := by
  decide
